import Mathlib

/-!
SparkApplication controller: AppID assignment and event callbacks.

A shallow embedding of `pkg/controller/controller.go`.

* Go strings are Lean strings; `[]byte(s)` is the UTF-8 encoding of `s`.
* A `*v1alpha1.SparkApplication` is an index into a heap of objects, so that
  writing through the copy and reading the cached object are distinguishable.
* The glog output and the calls made to `crdClient.Update` are recorded, in
  order, in the world state.
* A nil or dangling pointer dereference (a Go runtime fault) is `none`.
-/

namespace SparkOperator

/-! ## Data model -/

/-- Go `error` values, identified by their message (what `%v` prints). -/
abbrev GoError := String

/-- Modelled from the spec: the identity part of `metav1.ObjectMeta` (its
declaration is not among the sources); these are the four fields the
controller reads. -/
structure ObjectMeta where
  Name : String
  Namespace : String
  UID : String
  SelfLink : String
  deriving DecidableEq, Repr

/-- Modelled from the spec: `v1alpha1.SparkApplicationStatus` (declaration not
among the sources); `AppID` is the one status field the controller writes, the
empty string meaning unset. -/
structure SparkApplicationStatus where
  AppID : String
  deriving DecidableEq, Repr

/-- Modelled from the spec: `v1alpha1.SparkApplication` (declaration not among
the sources). `Spec` is never inspected by the controller and is kept as an
uninterpreted string. -/
structure SparkApplication where
  ObjectMeta : ObjectMeta
  Spec : String
  Status : SparkApplicationStatus
  deriving DecidableEq, Repr

/-- Promoted field `app.Name` of the embedded `ObjectMeta`. -/
abbrev SparkApplication.Name (app : SparkApplication) : String := app.ObjectMeta.Name

/-- Promoted field `app.Namespace` of the embedded `ObjectMeta`. -/
abbrev SparkApplication.Namespace (app : SparkApplication) : String := app.ObjectMeta.Namespace

/-- Promoted field `app.UID` of the embedded `ObjectMeta`. -/
abbrev SparkApplication.UID (app : SparkApplication) : String := app.ObjectMeta.UID

/-- The assignment `app.Status.AppID = id`, as a functional update. -/
def SparkApplication.setAppID (app : SparkApplication) (id : String) : SparkApplication :=
  { app with Status := { app.Status with AppID := id } }

/-! ## The 32-bit hasher and `fmt` -/

/-- The conversion `[]byte(s)`: the UTF-8 bytes of a string. -/
def goBytes (s : String) : List UInt8 :=
  s.data.flatMap String.utf8EncodeChar

/-- The `hash.Hash32` value returned by `util.NewHash32()`. The package `util`
is not among the sources, so the hasher is a parameter of the development:
`New` is the state of a fresh hasher, `Write` absorbs a byte slice and `sum`
reads the digest. -/
structure Hash32 where
  State : Type
  New : State
  Write : State → List UInt8 → State
  sum : State → Nat

/-- The method `Sum32()`: its result type is `uint32`. -/
def Hash32.Sum32 (h : Hash32) (st : h.State) : Nat :=
  h.sum st % 2 ^ 32

/-- A hasher is streaming when two consecutive writes are the same as one
write of the concatenation. -/
def Hash32.Streaming (h : Hash32) : Prop :=
  ∀ (st : h.State) (a b : List UInt8), h.Write (h.Write st a) b = h.Write st (a ++ b)

/-- One FNV-1a round on a 32-bit state. -/
def fnv1aStep (hash : Nat) (b : UInt8) : Nat :=
  ((hash ^^^ b.toNat) * 16777619) % 2 ^ 32

/-- Modelled from the spec: `util.NewHash32` is not among the sources; the
spec names FNV-1a as the example 32-bit hash, and this instance is used
wherever a concrete hasher is needed. -/
def fnv32a : Hash32 where
  State := Nat
  New := 2166136261
  Write := fun st bs => bs.foldl fnv1aStep st
  sum := fun st => st

/-- The decimal digit `byte('0' + d)`. -/
def digitByte (d : Nat) : Char :=
  Char.ofNat (48 + d)

/-- The base-10 loop of `fmt` for an unsigned integer: digits are produced
from the least significant one and stored right to left in front of `buf`.
The first argument bounds the number of iterations. -/
def fmtLoop : Nat → Nat → List Char → List Char
  | 0, _, buf => buf
  | fuel + 1, u, buf =>
    if 10 ≤ u then fmtLoop fuel (u / 10) (digitByte (u % 10) :: buf)
    else digitByte u :: buf

/-- The verb `%d` applied to an unsigned integer. The loop runs once per
decimal digit of `u`, so a bound of `u + 1` iterations is never reached. -/
def fmtUint (u : Nat) : String :=
  String.mk (fmtLoop (u + 1) u [])

/-- The source function: `buildAppID`, which hashes `Name`, `Namespace` and
`UID` in that order and returns `fmt.Sprintf("%s-%d", app.Name, hasher.Sum32())`. -/
def buildAppID (h : Hash32) (app : SparkApplication) : String :=
  let hasher := h.New
  let hasher := h.Write hasher (goBytes app.Name)
  let hasher := h.Write hasher (goBytes app.Namespace)
  let hasher := h.Write hasher (goBytes app.UID)
  app.Name ++ "-" ++ fmtUint (h.Sum32 hasher)

/-- The decimal rendering of a natural number: its base-10 digits, most
significant first, with no sign and no padding; zero is rendered as `0`. -/
def decimal (n : Nat) : String :=
  String.mk (if n = 0 then ['0'] else ((Nat.digits 10 n).reverse.map digitByte))

/-- The identifier as the specification words it: `name`, then `-`, then the
decimal rendering of the 32-bit digest of `name`, `namespace`, `uid` written
in that order into a fresh hasher. -/
def computeAppID (h : Hash32) (name ns uid : String) : String :=
  name ++ "-" ++
    decimal (h.Sum32 ([name, ns, uid].foldl (fun st x => h.Write st (goBytes x)) h.New))

/-! ## World state: heap, log and write-backs -/

/-- A line of glog output, by severity. -/
inductive LogEntry where
  | Info (msg : String)
  | Error (msg : String)
  deriving DecidableEq, Repr

/-- A call `crdClient.Update(app, namespace)` as the Resource Store Client
receives it: the contents of the object at the time of the call and the
namespace argument. -/
structure UpdateCall where
  app : SparkApplication
  ns : String
  deriving DecidableEq, Repr

/-- A `*v1alpha1.SparkApplication`: an index into the heap. -/
abbrev Ptr := Nat

/-- The state the callbacks act on. The objects of the informer's local cache
are cells of `heap`; `updates` lists the write-backs issued so far. The remote
store is reached through `Update` only, so it is untouched exactly when
`updates` does not grow. -/
structure World where
  heap : List SparkApplication
  log : List LogEntry
  updates : List UpdateCall
  deriving DecidableEq, Repr

/-- The call `glog.Infof(...)`, with the formatted message. -/
def glog.Infof (msg : String) (w : World) : World :=
  { w with log := w.log ++ [LogEntry.Info msg] }

/-- The call `glog.Errorf(...)`, with the formatted message. -/
def glog.Errorf (msg : String) (w : World) : World :=
  { w with log := w.log ++ [LogEntry.Error msg] }

/-- The `crd.Client` (package `crd` is not among the sources), by what its two
operations answer: `copyErr` is the error of `Scheme.DeepCopy` on an object
(`none` when the copy succeeds), `updateResult` is what `Update` returns. -/
structure Client where
  copyErr : SparkApplication → Option GoError
  updateResult : SparkApplication → String → Except GoError SparkApplication

/-- The call `crdClient.Scheme.DeepCopy(app)`: it fails with an error, or
allocates a new object with the contents of `app` and returns its address. -/
def Client.DeepCopy (c : Client) (app : Ptr) (w : World) :
    Option (Except GoError Ptr × World) :=
  match w.heap[app]? with
  | none => none
  | some a =>
    match c.copyErr a with
    | some err => some (Except.error err, w)
    | none => some (Except.ok w.heap.length, { w with heap := w.heap ++ [a] })

/-- The call `crdClient.Update(app, namespace)`: the request is recorded and
the client's answer returned. -/
def Client.Update (c : Client) (app : Ptr) (ns : String) (w : World) :
    Option (Except GoError SparkApplication × World) :=
  match w.heap[app]? with
  | none => none
  | some a => some (c.updateResult a ns, { w with updates := w.updates ++ [⟨a, ns⟩] })

/-- The `SparkApplicationController`; `kubeClient` and `submissionClient` are
never used by the functions below and are left out. -/
structure SparkApplicationController where
  crdClient : Client

/-! ## The event callbacks -/

/-- The source function: `onAdd`. -/
def onAdd (h : Hash32) (s : SparkApplicationController) (obj : Ptr) (w : World) :
    Option World :=
  match w.heap[obj]? with
  | none => none
  | some app =>
    let w := glog.Infof ("[CONTROLLER] OnAdd " ++ app.ObjectMeta.SelfLink ++ "\n") w
    match s.crdClient.DeepCopy obj w with
    | none => none
    | some (Except.error err, w) =>
      some (glog.Errorf ("failed to create a deep copy of example object: " ++ err ++ "\n") w)
    | some (Except.ok appCopy, w) =>
      match w.heap[appCopy]? with
      | none => none
      | some c =>
        let w := { w with heap := w.heap.set appCopy (c.setAppID (buildAppID h c)) }
        match w.heap[appCopy]? with
        | none => none
        | some c =>
          match s.crdClient.Update appCopy c.Namespace w with
          | none => none
          | some (_, w) => some w

/-- The source function: `onUpdate`. -/
def onUpdate (_s : SparkApplicationController) (oldObj newObj : Ptr) (w : World) :
    Option World :=
  match w.heap[oldObj]?, w.heap[newObj]? with
  | some oldApp, some newApp =>
    some (glog.Infof ("[CONTROLLER] OnUpdate " ++ oldApp.ObjectMeta.SelfLink ++ " to "
      ++ newApp.ObjectMeta.SelfLink ++ "\n") w)
  | _, _ => none

/-- The source function: `onDelete`. -/
def onDelete (_s : SparkApplicationController) (obj : Ptr) (w : World) : Option World :=
  match w.heap[obj]? with
  | none => none
  | some app => some (glog.Infof ("[CONTROLLER] OnDelete " ++ app.ObjectMeta.SelfLink ++ "\n") w)

/-! ## The controller lifecycle -/

/-- A `context.Context` on a discrete clock: `doneAt` is the tick at which its
`Done` channel is closed (`none` if it never is) and `cause` the error `Err`
reports from then on (`context.Canceled` or `context.DeadlineExceeded`). -/
structure Context where
  doneAt : Option Nat
  cause : GoError
  deriving DecidableEq, Repr

/-- Whether the `Done` channel is closed at tick `t`. -/
def Context.Done (ctx : Context) (t : Nat) : Bool :=
  match ctx.doneAt with
  | none => false
  | some d => decide (d ≤ t)

/-- The method `ctx.Err()` at tick `t`: nil (`none`) until `Done` is closed,
the cause afterwards. -/
def Context.Err (ctx : Context) (t : Nat) : Option GoError :=
  if ctx.Done t then some ctx.cause else none

/-- The receive `<-ctx.Done()` started at tick `now`: the tick at which it
completes, or `none` when it blocks forever. -/
def Context.await (ctx : Context) (now : Nat) : Option Nat :=
  match ctx.doneAt with
  | none => none
  | some d => some (max now d)

/-- The `cache.Controller` built by `cache.NewInformer`, by its resync period. -/
structure Informer where
  resyncPeriod : Nat
  deriving DecidableEq, Repr

/-- The source function: `watchSparkApplications`. It builds the informer with
resync period 0 and the three callbacks, starts it on its own goroutine (not
modelled) and returns it with a nil error. -/
def watchSparkApplications (_s : SparkApplicationController) (_ctx : Context) :
    Except GoError Informer :=
  Except.ok { resyncPeriod := 0 }

/-- What `Run` returns: its error (`none` is nil), the tick at which it
returns, and the lines it logged itself. -/
structure RunResult where
  err : Option GoError
  tick : Nat
  logged : List LogEntry
  deriving DecidableEq, Repr

/-- The body of `Run` after the call to `watchSparkApplications` has answered
`reg`. The result is `none` when `Run` blocks forever. -/
def runFrom (reg : Except GoError Informer) (ctx : Context) (now : Nat) : Option RunResult :=
  match reg with
  | Except.error err =>
    some ⟨some err, now,
      [LogEntry.Error ("Failed to register watch for SparkApplication resource: " ++ err ++ "\n")]⟩
  | Except.ok _ =>
    match ctx.await now with
    | none => none
    | some t => some ⟨ctx.Err t, t, []⟩

/-- The source function: `Run`, entered at tick `now`. -/
def Run (s : SparkApplicationController) (ctx : Context) (now : Nat) : Option RunResult :=
  runFrom (watchSparkApplications s ctx) ctx now

/-! ## Sample inputs -/

/-- The resource of the end-to-end scenario, not yet reconciled. -/
def job1 : SparkApplication :=
  ⟨⟨"job1", "default", "abc-123", "/apis/default/job1"⟩, "spec", ⟨""⟩⟩

/-- The same resource already carrying an identifier. -/
def job1Reconciled : SparkApplication :=
  job1.setAppID "job1-999"

/-- A client whose copies succeed and whose updates are accepted. -/
def okClient : Client :=
  ⟨fun _ => none, fun a _ => Except.ok a⟩

/-- A client whose copies succeed and whose updates are rejected. -/
def conflictClient : Client :=
  ⟨fun _ => none, fun _ _ => Except.error "conflict"⟩

/-- A client whose deep copy fails. -/
def brokenCopyClient : Client :=
  ⟨fun _ => some "cannot copy", fun a _ => Except.ok a⟩

/-- A world whose cache holds the given objects, with nothing logged or written. -/
def cacheOf (objs : List SparkApplication) : World :=
  ⟨objs, [], []⟩

end SparkOperator

namespace SparkOperator

/-! ## Formatting lemmas -/

/-- The digit zero is the character `0`. -/
theorem digitByte_zero : digitByte 0 = '0' := by decide

/-- With enough iterations the `fmt` loop puts the decimal rendering of `u`
in front of the buffer. -/
theorem fmtLoop_spec (fuel : Nat) : ∀ (u : Nat) (buf : List Char), u < fuel →
    fmtLoop fuel u buf =
      (if u = 0 then ['0'] else ((Nat.digits 10 u).reverse.map digitByte)) ++ buf := by
  induction fuel with
  | zero => intro u buf hu; exact absurd hu (Nat.not_lt_zero _)
  | succ fuel ih =>
    intro u buf hu
    by_cases h10 : 10 ≤ u
    · have hq : u / 10 < fuel := by omega
      have hq0 : u / 10 ≠ 0 := by omega
      have hpos : 0 < u := by omega
      have hu0 : u ≠ 0 := by omega
      have hd : Nat.digits 10 u = u % 10 :: Nat.digits 10 (u / 10) :=
        Nat.digits_def' (by decide) hpos
      simp only [fmtLoop, h10, if_true]
      rw [ih (u / 10) _ hq, if_neg hq0, if_neg hu0, hd]
      simp
    · have hlt : u < 10 := by omega
      simp only [fmtLoop, h10, if_false]
      by_cases hu0 : u = 0
      · subst hu0
        simp [digitByte_zero]
      · rw [if_neg hu0, Nat.digits_of_lt 10 u hu0 hlt]
        simp

/-- The verb `%d` renders an unsigned integer in decimal. -/
theorem fmtUint_eq_decimal (u : Nat) : fmtUint u = decimal u := by
  unfold fmtUint decimal
  rw [fmtLoop_spec (u + 1) u [] (Nat.lt_succ_self u)]
  simp

/-- The digest read by `Sum32` fits in 32 bits. -/
theorem Sum32_lt (h : Hash32) (st : h.State) : h.Sum32 st < 2 ^ 32 :=
  Nat.mod_lt _ (by decide)

/-- The FNV-1a instance is streaming. -/
theorem fnv32a_streaming : fnv32a.Streaming := by
  intro st a b
  simp [fnv32a, List.foldl_append]

/-- A value below ten is rendered as a digit character. -/
theorem digitByte_isDigit (d : Nat) (hd : d < 10) : (digitByte d).isDigit = true := by
  interval_cases d <;> decide

/-- Only the value zero is rendered as the character `0`. -/
theorem digitByte_eq_zero (d : Nat) (hd : d < 10) (h0 : digitByte d = '0') : d = 0 := by
  revert h0
  interval_cases d <;> decide

/-- A decimal rendering consists of digit characters only: no sign. -/
theorem decimal_digits (n : Nat) : ∀ c ∈ (decimal n).data, c.isDigit = true := by
  intro c hc
  unfold decimal at hc
  by_cases hn : n = 0
  · simp [hn] at hc
    subst hc
    decide
  · simp only [if_neg hn, List.mem_map, List.mem_reverse] at hc
    obtain ⟨d, hd, rfl⟩ := hc
    exact digitByte_isDigit d (Nat.digits_lt_base (by decide) hd)

/-- A decimal rendering starts with `0` only when the number is zero: no
padding. -/
theorem decimal_no_padding (n : Nat) : (decimal n).data.head? = some '0' → n = 0 := by
  intro hh
  by_contra hn
  unfold decimal at hh
  simp only [if_neg hn] at hh
  have hne : Nat.digits 10 n ≠ [] := Nat.digits_ne_nil_iff_ne_zero.mpr hn
  have hlast := Nat.getLast_digit_ne_zero 10 hn
  have hmem : (Nat.digits 10 n).getLast hne ∈ Nat.digits 10 n := List.getLast_mem hne
  have hlt : (Nat.digits 10 n).getLast hne < 10 := Nat.digits_lt_base (by decide) hmem
  rw [List.head?_map, List.head?_reverse, List.getLast?_eq_getLast _ hne] at hh
  simp only [Option.map_some', Option.some.injEq] at hh
  exact hlast (digitByte_eq_zero _ hlt hh)

/-! ## What `onAdd` does to the world -/

/-- When the deep copy succeeds, `onAdd` returns after allocating the copy,
setting its `AppID`, logging one line and issuing one `Update` of the copy. -/
theorem onAdd_of_copy_ok (h : Hash32) (s : SparkApplicationController) (obj : Ptr)
    (w : World) (r : SparkApplication) (hobj : w.heap[obj]? = some r)
    (hcopy : s.crdClient.copyErr r = none) :
    onAdd h s obj w = some
      { heap := w.heap ++ [r.setAppID (buildAppID h r)],
        log := w.log ++ [LogEntry.Info ("[CONTROLLER] OnAdd " ++ r.ObjectMeta.SelfLink ++ "\n")],
        updates := w.updates ++ [⟨r.setAppID (buildAppID h r), r.Namespace⟩] } := by
  unfold onAdd
  simp [hobj, hcopy, Client.DeepCopy, Client.Update, glog.Infof, SparkApplication.setAppID,
    SparkApplication.Namespace]

/-- When the deep copy fails, `onAdd` returns after logging two lines. -/
theorem onAdd_of_copy_error (h : Hash32) (s : SparkApplicationController) (obj : Ptr)
    (w : World) (r : SparkApplication) (err : GoError) (hobj : w.heap[obj]? = some r)
    (hcopy : s.crdClient.copyErr r = some err) :
    onAdd h s obj w = some
      { w with log := w.log ++
          [LogEntry.Info ("[CONTROLLER] OnAdd " ++ r.ObjectMeta.SelfLink ++ "\n"),
           LogEntry.Error ("failed to create a deep copy of example object: " ++ err ++ "\n")] } := by
  unfold onAdd
  simp [hobj, hcopy, Client.DeepCopy, glog.Infof, glog.Errorf]

/-- On valid objects `onUpdate` returns after logging one line. -/
theorem onUpdate_eq (s : SparkApplicationController) (oldObj newObj : Ptr) (w : World)
    (o n : SparkApplication) (hold : w.heap[oldObj]? = some o) (hnew : w.heap[newObj]? = some n) :
    onUpdate s oldObj newObj w = some
      { w with log := w.log ++ [LogEntry.Info ("[CONTROLLER] OnUpdate " ++ o.ObjectMeta.SelfLink
          ++ " to " ++ n.ObjectMeta.SelfLink ++ "\n")] } := by
  unfold onUpdate
  simp [hold, hnew, glog.Infof]

/-- On a valid object `onDelete` returns after logging one line. -/
theorem onDelete_eq (s : SparkApplicationController) (obj : Ptr) (w : World)
    (r : SparkApplication) (hobj : w.heap[obj]? = some r) :
    onDelete s obj w = some
      { w with log := w.log ++
          [LogEntry.Info ("[CONTROLLER] OnDelete " ++ r.ObjectMeta.SelfLink ++ "\n")] } := by
  unfold onDelete
  simp [hobj, glog.Infof]

/-- The source function and the specification's wording of the identifier agree. -/
theorem buildAppID_eq_computeAppID (h : Hash32) (app : SparkApplication) :
    buildAppID h app = computeAppID h app.Name app.Namespace app.UID := by
  simp [buildAppID, computeAppID, fmtUint_eq_decimal]

/-! ## Identifier assignment by `onAdd` -/

/-- C1: for a cached object `r` with no `AppID` whose deep copy succeeds,
`onAdd` returns having issued exactly one `Update`, addressed to namespace
`r.Namespace`, whose object has the metadata and spec of `r` and carries
`Status.AppID = buildAppID r`, which is `computeAppID (Name, Namespace, UID)`. -/
theorem onAdd_issues_one_update (h : Hash32) (s : SparkApplicationController) (obj : Ptr)
    (w : World) (r : SparkApplication) (hobj : w.heap[obj]? = some r)
    (hunset : r.Status.AppID = "") (hcopy : s.crdClient.copyErr r = none) :
    ∃ w' u, onAdd h s obj w = some w' ∧ w'.updates = w.updates ++ [u] ∧
      u.ns = r.Namespace ∧ u.app.ObjectMeta = r.ObjectMeta ∧ u.app.Spec = r.Spec ∧
      u.app.Status.AppID = buildAppID h r ∧
      u.app.Status.AppID = computeAppID h r.Name r.Namespace r.UID ∧
      r.Status.AppID = "" := by
  refine ⟨_, ⟨r.setAppID (buildAppID h r), r.Namespace⟩, onAdd_of_copy_ok h s obj w r hobj hcopy,
    rfl, rfl, rfl, rfl, rfl, ?_, hunset⟩
  exact buildAppID_eq_computeAppID h r

/-- C1 at the end-to-end scenario: `job1` in namespace `default` with UID
`abc-123`, under the FNV-1a hasher. -/
theorem onAdd_issues_one_update_witness :
    (cacheOf [job1]).heap[0]? = some job1 ∧ job1.Status.AppID = "" ∧
    okClient.copyErr job1 = none ∧
    ∃ w' u, onAdd fnv32a ⟨okClient⟩ 0 (cacheOf [job1]) = some w' ∧
      w'.updates = (cacheOf [job1]).updates ++ [u] ∧
      u.ns = job1.Namespace ∧ u.app.ObjectMeta = job1.ObjectMeta ∧ u.app.Spec = job1.Spec ∧
      u.app.Status.AppID = buildAppID fnv32a job1 ∧
      u.app.Status.AppID = computeAppID fnv32a job1.Name job1.Namespace job1.UID ∧
      job1.Status.AppID = "" :=
  ⟨by decide, by decide, by decide,
    onAdd_issues_one_update fnv32a ⟨okClient⟩ 0 (cacheOf [job1]) job1
      (by decide) (by decide) (by decide)⟩

/-- C2, as stated, fails: delivered the object already carrying
`Status.AppID = "job1-999"`, `onAdd` still issues one `Update`. -/
theorem onAdd_reconciled_not_noop :
    job1Reconciled.Status.AppID = "job1-999" ∧
    onAdd fnv32a ⟨okClient⟩ 0 (cacheOf [job1Reconciled]) = some
      { heap := [job1Reconciled, job1.setAppID "job1-2664345129"],
        log := [LogEntry.Info "[CONTROLLER] OnAdd /apis/default/job1\n"],
        updates := [⟨job1.setAppID "job1-2664345129", "default"⟩] } := by
  decide

/-- C2, amended: for a cached object `r` whose `AppID` is already set, `onAdd`
returns having issued exactly one `Update` (namespace `r.Namespace`, object `r`
with `Status.AppID` replaced by `buildAppID r`) when the deep copy succeeds,
and no `Update` when the deep copy fails. -/
theorem onAdd_reconciled_updates (h : Hash32) (s : SparkApplicationController) (obj : Ptr)
    (w : World) (r : SparkApplication) (hobj : w.heap[obj]? = some r)
    (hset : r.Status.AppID ≠ "") :
    ∃ w', onAdd h s obj w = some w' ∧
      w'.updates = w.updates ++
        (match s.crdClient.copyErr r with
         | none => [⟨r.setAppID (buildAppID h r), r.Namespace⟩]
         | some _ => []) ∧
      r.Status.AppID ≠ "" := by
  cases hc : s.crdClient.copyErr r with
  | none => exact ⟨_, onAdd_of_copy_ok h s obj w r hobj hc, rfl, hset⟩
  | some err => exact ⟨_, onAdd_of_copy_error h s obj w r err hobj hc, by simp, hset⟩

/-- C2, amended, at the object carrying `job1-999`. -/
theorem onAdd_reconciled_updates_witness :
    (cacheOf [job1Reconciled]).heap[0]? = some job1Reconciled ∧
    job1Reconciled.Status.AppID ≠ "" ∧
    ∃ w', onAdd fnv32a ⟨okClient⟩ 0 (cacheOf [job1Reconciled]) = some w' ∧
      w'.updates = (cacheOf [job1Reconciled]).updates ++
        (match (SparkApplicationController.mk okClient).crdClient.copyErr job1Reconciled with
         | none => [⟨job1Reconciled.setAppID (buildAppID fnv32a job1Reconciled),
                     job1Reconciled.Namespace⟩]
         | some _ => []) ∧
      job1Reconciled.Status.AppID ≠ "" :=
  ⟨by decide, by decide,
    onAdd_reconciled_updates fnv32a ⟨okClient⟩ 0 (cacheOf [job1Reconciled]) job1Reconciled
      (by decide) (by decide)⟩

/-- C3, as stated, fails: the object carrying `Status.AppID = "job1-999"` is
written back by `onAdd` with `Status.AppID = "job1-2664345129"`. -/
theorem onAdd_overwrites_appID :
    job1Reconciled.Status.AppID = "job1-999" ∧
    (onAdd fnv32a ⟨okClient⟩ 0 (cacheOf [job1Reconciled])).map
      (fun w => w.updates.map (fun u => u.app.Status.AppID)) = some ["job1-2664345129"] ∧
    "job1-2664345129" ≠ job1Reconciled.Status.AppID := by
  decide

/-- C3, amended: if the `AppID` of a cached object `r` is the value `onAdd`
assigns, `buildAppID r`, then every callback returns and every object it
writes back carries `r.Status.AppID` (indeed is `r`); `onUpdate` and
`onDelete` write nothing back. -/
theorem appID_stable_at_assigned_value (h : Hash32) (s : SparkApplicationController)
    (obj other : Ptr) (w : World) (r r2 : SparkApplication)
    (hobj : w.heap[obj]? = some r) (hother : w.heap[other]? = some r2)
    (hfix : r.Status.AppID = buildAppID h r) :
    (∃ w' new, onAdd h s obj w = some w' ∧ w'.updates = w.updates ++ new ∧
      ∀ u ∈ new, u.app.Status.AppID = r.Status.AppID ∧ u.app = r) ∧
    (∃ w', onUpdate s obj other w = some w' ∧ w'.updates = w.updates) ∧
    (∃ w', onUpdate s other obj w = some w' ∧ w'.updates = w.updates) ∧
    (∃ w', onDelete s obj w = some w' ∧ w'.updates = w.updates) := by
  refine ⟨?_, ⟨_, onUpdate_eq s obj other w r r2 hobj hother, rfl⟩,
    ⟨_, onUpdate_eq s other obj w r2 r hother hobj, rfl⟩, ⟨_, onDelete_eq s obj w r hobj, rfl⟩⟩
  have hr : r.setAppID (buildAppID h r) = r := by
    rw [← hfix]; rfl
  cases hc : s.crdClient.copyErr r with
  | none =>
    refine ⟨_, [⟨r, r.Namespace⟩], onAdd_of_copy_ok h s obj w r hobj hc, ?_, ?_⟩
    · simp [hr]
    · intro u hu
      simp only [List.mem_singleton] at hu
      subst hu
      exact ⟨rfl, rfl⟩
  | some err =>
    exact ⟨_, [], onAdd_of_copy_error h s obj w r err hobj hc, by simp, by simp⟩

/-- C3, amended, at `job1` carrying the identifier `onAdd` assigns to it. -/
theorem appID_stable_at_assigned_value_witness :
    (cacheOf [job1.setAppID "job1-2664345129", job1]).heap[0]? =
      some (job1.setAppID "job1-2664345129") ∧
    (job1.setAppID "job1-2664345129").Status.AppID =
      buildAppID fnv32a (job1.setAppID "job1-2664345129") ∧
    ((∃ w' new, onAdd fnv32a ⟨okClient⟩ 0 (cacheOf [job1.setAppID "job1-2664345129", job1])
        = some w' ∧
      w'.updates = (cacheOf [job1.setAppID "job1-2664345129", job1]).updates ++ new ∧
      ∀ u ∈ new, u.app.Status.AppID = (job1.setAppID "job1-2664345129").Status.AppID ∧
        u.app = job1.setAppID "job1-2664345129") ∧
    (∃ w', onUpdate ⟨okClient⟩ 0 1 (cacheOf [job1.setAppID "job1-2664345129", job1]) = some w' ∧
      w'.updates = (cacheOf [job1.setAppID "job1-2664345129", job1]).updates) ∧
    (∃ w', onUpdate ⟨okClient⟩ 1 0 (cacheOf [job1.setAppID "job1-2664345129", job1]) = some w' ∧
      w'.updates = (cacheOf [job1.setAppID "job1-2664345129", job1]).updates) ∧
    (∃ w', onDelete ⟨okClient⟩ 0 (cacheOf [job1.setAppID "job1-2664345129", job1]) = some w' ∧
      w'.updates = (cacheOf [job1.setAppID "job1-2664345129", job1]).updates)) :=
  ⟨by decide, by decide,
    appID_stable_at_assigned_value fnv32a ⟨okClient⟩ 0 1
      (cacheOf [job1.setAppID "job1-2664345129", job1])
      (job1.setAppID "job1-2664345129") job1 (by decide) (by decide) (by decide)⟩

/-! ## The identifier generator -/

/-- C4: `buildAppID` is `computeAppID` of `(Name, Namespace, UID)`: the name,
a dash, and the decimal rendering (digits only, no leading zero) of the 32-bit
digest of the bytes of name, namespace and uid written in that order into a
fresh hasher; so objects with equal `(Name, Namespace, UID)` get equal
identifiers, whatever their other fields. -/
theorem buildAppID_spec (h : Hash32) (a b : SparkApplication) :
    buildAppID h a = computeAppID h a.Name a.Namespace a.UID ∧
    (∃ n, n = h.Sum32 (h.Write (h.Write (h.Write h.New (goBytes a.Name))
            (goBytes a.Namespace)) (goBytes a.UID)) ∧
      n < 2 ^ 32 ∧ buildAppID h a = a.Name ++ "-" ++ decimal n ∧
      (∀ c ∈ (decimal n).data, c.isDigit = true) ∧
      ((decimal n).data.head? = some '0' → n = 0)) ∧
    (a.Name = b.Name → a.Namespace = b.Namespace → a.UID = b.UID →
      buildAppID h a = buildAppID h b) := by
  refine ⟨buildAppID_eq_computeAppID h a, ⟨_, rfl, Sum32_lt h _, ?_, decimal_digits _,
    decimal_no_padding _⟩, ?_⟩
  · simp [buildAppID, fmtUint_eq_decimal]
  · intro hn hns hu
    simp only [SparkApplication.Name, SparkApplication.Namespace, SparkApplication.UID] at hn hns hu
    simp [buildAppID, hn, hns, hu]

/-- C4 at `job1` and `job1` carrying an identifier: same name, namespace and
UID, different status. -/
theorem buildAppID_spec_witness :
    job1.Name = job1Reconciled.Name ∧ job1.Namespace = job1Reconciled.Namespace ∧
    job1.UID = job1Reconciled.UID ∧ job1 ≠ job1Reconciled ∧
    buildAppID fnv32a job1 = buildAppID fnv32a job1Reconciled :=
  ⟨by decide, by decide, by decide, by decide,
    (buildAppID_spec fnv32a job1 job1Reconciled).2.2 (by decide) (by decide) (by decide)⟩

/-- C10: under a streaming hasher `buildAppID` cannot tell where the
namespace ends and the UID begins: objects with the same name and the same
concatenation of namespace bytes and UID bytes get the same identifier. -/
theorem buildAppID_undelimited (h : Hash32) (hs : h.Streaming) (a b : SparkApplication)
    (hname : a.Name = b.Name)
    (hcat : goBytes a.Namespace ++ goBytes a.UID = goBytes b.Namespace ++ goBytes b.UID) :
    buildAppID h a = buildAppID h b := by
  simp only [SparkApplication.Name] at hname
  simp only [buildAppID, SparkApplication.Name, hname]
  rw [hs (h.Write h.New (goBytes b.ObjectMeta.Name)), hs (h.Write h.New (goBytes b.ObjectMeta.Name)),
    hcat]

/-- C10 at `(n, "ab", "c")` and `(n, "a", "bc")` under FNV-1a. -/
theorem buildAppID_undelimited_witness :
    ("ab", "c") ≠ ("a", "bc") ∧
    buildAppID fnv32a ⟨⟨"n", "ab", "c", "/l"⟩, "", ⟨""⟩⟩ =
      buildAppID fnv32a ⟨⟨"n", "a", "bc", "/l"⟩, "", ⟨""⟩⟩ :=
  ⟨by decide,
    buildAppID_undelimited fnv32a fnv32a_streaming ⟨⟨"n", "ab", "c", "/l"⟩, "", ⟨""⟩⟩
      ⟨⟨"n", "a", "bc", "/l"⟩, "", ⟨""⟩⟩ (by decide) (by decide)⟩

/-! ## Frame conditions of the callbacks -/

/-- C5: `onAdd` and `onUpdate` return leaving every object that was on the
heap (in particular every cached snapshot, and the one `onAdd` received) with
the contents it had before the call; `onAdd` only appends its copy. -/
theorem callbacks_do_not_mutate_cache (h : Hash32) (s : SparkApplicationController)
    (obj other : Ptr) (w : World) (r r2 : SparkApplication)
    (hobj : w.heap[obj]? = some r) (hother : w.heap[other]? = some r2) :
    (∃ w', onAdd h s obj w = some w' ∧ w.heap <+: w'.heap ∧ w'.heap[obj]? = some r ∧
      ∀ (p : Ptr) (a : SparkApplication), w.heap[p]? = some a → w'.heap[p]? = some a) ∧
    (∃ w', onUpdate s obj other w = some w' ∧ w'.heap = w.heap) := by
  refine ⟨?_, ⟨_, onUpdate_eq s obj other w r r2 hobj hother, rfl⟩⟩
  have key : ∀ w', onAdd h s obj w = some w' → w.heap <+: w'.heap →
      ∃ w', onAdd h s obj w = some w' ∧ w.heap <+: w'.heap ∧ w'.heap[obj]? = some r ∧
        ∀ (p : Ptr) (a : SparkApplication), w.heap[p]? = some a → w'.heap[p]? = some a := by
    intro w' hw' hpre
    have hall : ∀ (p : Ptr) (a : SparkApplication), w.heap[p]? = some a →
        w'.heap[p]? = some a := by
      intro p a hp
      obtain ⟨t, ht⟩ := hpre
      rw [← ht]
      have hlt : p < w.heap.length := (List.getElem?_eq_some_iff.mp hp).1
      rw [List.getElem?_append_left hlt]
      exact hp
    exact ⟨w', hw', hpre, hall obj r hobj, hall⟩
  cases hc : s.crdClient.copyErr r with
  | none => exact key _ (onAdd_of_copy_ok h s obj w r hobj hc) (List.prefix_append _ _)
  | some err => exact key _ (onAdd_of_copy_error h s obj w r err hobj hc) (List.prefix_refl _)

/-- C5 at a cache holding `job1` and its reconciled version. -/
theorem callbacks_do_not_mutate_cache_witness :
    (cacheOf [job1, job1Reconciled]).heap[0]? = some job1 ∧
    (cacheOf [job1, job1Reconciled]).heap[1]? = some job1Reconciled ∧
    ((∃ w', onAdd fnv32a ⟨okClient⟩ 0 (cacheOf [job1, job1Reconciled]) = some w' ∧
      (cacheOf [job1, job1Reconciled]).heap <+: w'.heap ∧ w'.heap[0]? = some job1 ∧
      ∀ (p : Ptr) (a : SparkApplication),
        (cacheOf [job1, job1Reconciled]).heap[p]? = some a → w'.heap[p]? = some a) ∧
    (∃ w', onUpdate ⟨okClient⟩ 0 1 (cacheOf [job1, job1Reconciled]) = some w' ∧
      w'.heap = (cacheOf [job1, job1Reconciled]).heap)) :=
  ⟨by decide, by decide,
    callbacks_do_not_mutate_cache fnv32a ⟨okClient⟩ 0 1 (cacheOf [job1, job1Reconciled])
      job1 job1Reconciled (by decide) (by decide)⟩

/-- C6: `onUpdate` and `onDelete` return having issued no `Update`: they add
one Info line to the log and leave write-backs and heap as they were. -/
theorem onUpdate_onDelete_no_writeback (s : SparkApplicationController)
    (oldObj newObj obj : Ptr) (w : World) (o n r : SparkApplication)
    (hold : w.heap[oldObj]? = some o) (hnew : w.heap[newObj]? = some n)
    (hobj : w.heap[obj]? = some r) :
    (∃ w' msg, onUpdate s oldObj newObj w = some w' ∧ w'.updates = w.updates ∧
      w'.heap = w.heap ∧ w'.log = w.log ++ [LogEntry.Info msg]) ∧
    (∃ w' msg, onDelete s obj w = some w' ∧ w'.updates = w.updates ∧
      w'.heap = w.heap ∧ w'.log = w.log ++ [LogEntry.Info msg]) :=
  ⟨⟨_, _, onUpdate_eq s oldObj newObj w o n hold hnew, rfl, rfl, rfl⟩,
    ⟨_, _, onDelete_eq s obj w r hobj, rfl, rfl, rfl⟩⟩

/-- C6 at a cache holding `job1` and its reconciled version. -/
theorem onUpdate_onDelete_no_writeback_witness :
    (cacheOf [job1, job1Reconciled]).heap[0]? = some job1 ∧
    (cacheOf [job1, job1Reconciled]).heap[1]? = some job1Reconciled ∧
    ((∃ w' msg, onUpdate ⟨okClient⟩ 0 1 (cacheOf [job1, job1Reconciled]) = some w' ∧
      w'.updates = (cacheOf [job1, job1Reconciled]).updates ∧
      w'.heap = (cacheOf [job1, job1Reconciled]).heap ∧
      w'.log = (cacheOf [job1, job1Reconciled]).log ++ [LogEntry.Info msg]) ∧
    (∃ w' msg, onDelete ⟨okClient⟩ 1 (cacheOf [job1, job1Reconciled]) = some w' ∧
      w'.updates = (cacheOf [job1, job1Reconciled]).updates ∧
      w'.heap = (cacheOf [job1, job1Reconciled]).heap ∧
      w'.log = (cacheOf [job1, job1Reconciled]).log ++ [LogEntry.Info msg])) :=
  ⟨by decide, by decide,
    onUpdate_onDelete_no_writeback ⟨okClient⟩ 0 1 1 (cacheOf [job1, job1Reconciled])
      job1 job1Reconciled job1Reconciled (by decide) (by decide) (by decide)⟩

/-! ## Failures inside `onAdd` -/

/-- C7 on the code: with a client whose `Update` answers the error `conflict`,
`onAdd` issues the `Update` and returns with the single Info line in the log;
the error appears nowhere. -/
theorem onAdd_drops_update_error :
    (∃ a ns, conflictClient.updateResult a ns = Except.error "conflict") ∧
    onAdd fnv32a ⟨conflictClient⟩ 0 (cacheOf [job1]) = some
      { heap := [job1, job1.setAppID "job1-2664345129"],
        log := [LogEntry.Info "[CONTROLLER] OnAdd /apis/default/job1\n"],
        updates := [⟨job1.setAppID "job1-2664345129", "default"⟩] } :=
  ⟨⟨job1, "default", rfl⟩, by decide⟩

/-- C8: when the deep copy of the cached object fails with `err`, `onAdd`
returns the world it was given with two more log lines, the Info line and an
Error line carrying `err`: no `Update`, heap unchanged, and the same result
under every hasher (no identifier is computed). -/
theorem onAdd_copy_failure_drops_event (h : Hash32) (s : SparkApplicationController)
    (obj : Ptr) (w : World) (r : SparkApplication) (err : GoError)
    (hobj : w.heap[obj]? = some r) (hcopy : s.crdClient.copyErr r = some err) :
    (∃ w', onAdd h s obj w = some w' ∧ w'.updates = w.updates ∧ w'.heap = w.heap ∧
      w'.log = w.log ++
        [LogEntry.Info ("[CONTROLLER] OnAdd " ++ r.ObjectMeta.SelfLink ++ "\n"),
         LogEntry.Error ("failed to create a deep copy of example object: " ++ err ++ "\n")]) ∧
    (∀ h2 : Hash32, onAdd h2 s obj w = onAdd h s obj w) := by
  refine ⟨⟨_, onAdd_of_copy_error h s obj w r err hobj hcopy, rfl, rfl, rfl⟩, ?_⟩
  intro h2
  rw [onAdd_of_copy_error h s obj w r err hobj hcopy,
    onAdd_of_copy_error h2 s obj w r err hobj hcopy]

/-- C8 at `job1` with a client whose deep copy fails. -/
theorem onAdd_copy_failure_drops_event_witness :
    (cacheOf [job1]).heap[0]? = some job1 ∧
    brokenCopyClient.copyErr job1 = some "cannot copy" ∧
    ((∃ w', onAdd fnv32a ⟨brokenCopyClient⟩ 0 (cacheOf [job1]) = some w' ∧
      w'.updates = (cacheOf [job1]).updates ∧ w'.heap = (cacheOf [job1]).heap ∧
      w'.log = (cacheOf [job1]).log ++
        [LogEntry.Info ("[CONTROLLER] OnAdd " ++ job1.ObjectMeta.SelfLink ++ "\n"),
         LogEntry.Error ("failed to create a deep copy of example object: " ++ "cannot copy"
           ++ "\n")]) ∧
    (∀ h2 : Hash32, onAdd h2 ⟨brokenCopyClient⟩ 0 (cacheOf [job1]) =
      onAdd fnv32a ⟨brokenCopyClient⟩ 0 (cacheOf [job1]))) :=
  ⟨by decide, by decide,
    onAdd_copy_failure_drops_event fnv32a ⟨brokenCopyClient⟩ 0 (cacheOf [job1]) job1
      "cannot copy" (by decide) (by decide)⟩

/-! ## The result of `Run` -/

/-- C9: if the watch registration answers an error `e`, the body of `Run`
returns `e` at the tick it was entered, whatever the context; `Run` itself
registers successfully, and if its context is cancelled at tick `d` it returns
at the later of `now` and `d` with exactly `ctx.Err()`, which is the non-nil
cause; it returns nothing while the context is never cancelled, and whenever
it returns its error is non-nil. -/
theorem Run_result (s : SparkApplicationController) (ctx : Context) (now : Nat) :
    (∀ e : GoError, ∃ res, runFrom (Except.error e) ctx now = some res ∧
      res.err = some e ∧ res.tick = now) ∧
    (∃ inf, watchSparkApplications s ctx = Except.ok inf ∧
      Run s ctx now = runFrom (Except.ok inf) ctx now) ∧
    (∀ d : Nat, ctx.doneAt = some d → ∃ res, Run s ctx now = some res ∧
      res.tick = max now d ∧ res.err = ctx.Err res.tick ∧ res.err = some ctx.cause) ∧
    (ctx.doneAt = none → Run s ctx now = none) ∧
    (∀ res, Run s ctx now = some res → res.err ≠ none) := by
  refine ⟨fun e => ⟨_, rfl, rfl, rfl⟩, ⟨_, rfl, rfl⟩, ?_, ?_, ?_⟩
  · intro d hd
    have hdone : ctx.Done (max now d) = true := by
      simp [Context.Done, hd]
    refine ⟨⟨ctx.Err (max now d), max now d, []⟩, ?_, rfl, rfl, ?_⟩
    · simp [Run, runFrom, watchSparkApplications, Context.await, hd]
    · simp [Context.Err, hdone]
  · intro hd
    simp [Run, runFrom, watchSparkApplications, Context.await, hd]
  · intro res hres
    cases hd : ctx.doneAt with
    | none => simp [Run, runFrom, watchSparkApplications, Context.await, hd] at hres
    | some d =>
      have hdone : ctx.Done (max now d) = true := by
        simp [Context.Done, hd]
      simp [Run, runFrom, watchSparkApplications, Context.await, hd] at hres
      subst hres
      simp [Context.Err, hdone]

/-- C9 at a context cancelled at tick 5, with `Run` entered at tick 2. -/
theorem Run_result_witness :
    (Context.mk (some 5) "context canceled").doneAt = some 5 ∧
    ∃ res, Run ⟨okClient⟩ ⟨some 5, "context canceled"⟩ 2 = some res ∧
      res.tick = max 2 5 ∧
      res.err = (Context.mk (some 5) "context canceled").Err res.tick ∧
      res.err = some (Context.mk (some 5) "context canceled").cause :=
  ⟨by decide, (Run_result ⟨okClient⟩ ⟨some 5, "context canceled"⟩ 2).2.2.1 5 (by decide)⟩

end SparkOperator
